import Mathlib

/-!
Shallow embedding of the crawl-lyrics repository (Python) in Lean 4,
with theorems checking the natural-language specification against the code.

Conventions of the embedding:
* Python `Optional[T]` becomes `Option T`; a `dict` key that may be absent
  becomes an `Option` field.
* Python exceptions become `Except String` values (the string is the error
  message, matching `str(e)`).
* Wall-clock instants and float delays are modelled as rationals (`ℚ`);
  crawl timestamps (`datetime.now()`) are abstract ticks (`Nat`).
* Effectful network calls are parameters ("oracles"): a function from the
  request to the `Except`-value the awaited call would produce.
-/

namespace CrawlLyrics

/-! ## Python primitives -/

/-- Value of a non-empty all-digit character list, else `none`. -/
def digitsToNat? (cs : List Char) : Option Nat :=
  if cs = [] then none
  else cs.foldl
    (fun acc c => acc.bind (fun n =>
      if c.isDigit then some (10 * n + (c.toNat - 48)) else none))
    (some 0)

/-- Models Python `int(s)` on the strings that occur in the crawler
(decimal digits with an optional leading minus); returns `none` where
Python raises `ValueError`. -/
def pyInt (s : String) : Option Int :=
  match s.toList with
  | '-' :: rest => (digitsToNat? rest).map (fun n => -(n : Int))
  | cs => (digitsToNat? cs).map (fun n => (n : Int))

/-- Python `str.split(sep)` on a character list: splits at every
occurrence of `sep` and keeps empty components. -/
def splitOnChar (sep : Char) : List Char → List (List Char)
  | [] => [[]]
  | c :: cs =>
    match splitOnChar sep cs with
    | [] => [[]]
    | w :: ws => if c = sep then [] :: w :: ws else (c :: w) :: ws

/-- Models Python `date_str.split('-')`. -/
def pySplitDash (s : String) : List String :=
  (splitOnChar '-' s.toList).map (fun cs => String.mk cs)

/-- Worker for `pyWords`: `acc` holds the reversed characters of the word
being read. -/
def wordsAux : List Char → List Char → List String
  | [], acc => if acc = [] then [] else [String.mk acc.reverse]
  | c :: cs, acc =>
    if c = ' ' then
      if acc = [] then wordsAux cs []
      else String.mk acc.reverse :: wordsAux cs []
    else wordsAux cs (c :: acc)

/-- Models Python `str.split()` on the space-separated text that occurs
here: splits on runs of spaces and yields no empty components. -/
def pyWords (s : String) : List String := wordsAux s.toList []

/-- Number of whitespace-separated words of a string, via `pyWords`. -/
def wordCount (s : String) : Nat := (pyWords s).length

/-- Truthiness of a Python `Optional[str]`: `None` and `""` are falsy. -/
def strTruthy : Option String → Bool
  | none => false
  | some s => s ≠ ""

/-- Truthiness of a Python `Optional[int]`: `None` and `0` are falsy. -/
def intTruthy : Option Int → Bool
  | none => false
  | some n => n ≠ 0

/-! ## Dates (models Python `datetime.date` validity) -/

/-- Gregorian leap-year rule, as `datetime.date` uses it. -/
def isLeapYear (y : Int) : Bool := (y % 4 == 0 && y % 100 != 0) || y % 400 == 0

/-- Days in a month, as `datetime.date` validates them. -/
def daysInMonth (y m : Int) : Int :=
  if m = 2 then (if isLeapYear y then 29 else 28)
  else if m = 4 ∨ m = 6 ∨ m = 9 ∨ m = 11 then 30
  else 31

/-- A valid Python `datetime.date` value. -/
structure PyDate where
  year : Int
  month : Int
  day : Int
  deriving DecidableEq, Repr

/-- Models the `date(y, m, d)` constructor: `none` where Python raises
`ValueError` (year outside 1..9999, month outside 1..12, day invalid). -/
def PyDate.make (y m d : Int) : Option PyDate :=
  if 1 ≤ y ∧ y ≤ 9999 ∧ 1 ≤ m ∧ m ≤ 12 ∧ 1 ≤ d ∧ d ≤ daysInMonth y m then
    some ⟨y, m, d⟩
  else none

theorem PyDate.make_year_pos {y m d : Int} {dt : PyDate}
    (h : PyDate.make y m d = some dt) : 1 ≤ dt.year := by
  unfold PyDate.make at h
  split at h
  · rename_i hc
    cases h
    exact hc.1
  · cases h

/-! ## Canonical data model (`src/models/discography.py`) -/

/-- `Track` model. `lyrics_reference` is a free-form dict in the source;
its contents never matter to any claim, so it is kept as an opaque flag. -/
structure Track where
  title : String
  track_number : Int
  duration_ms : Option Int := none
  isrc : Option String := none
  preview_available : Bool := false
  explicit : Bool := false
  lyrics_reference : Option String := none
  genius_url : Option String := none
  deriving DecidableEq, Repr

/-- `Album` model. `genre` has `default_factory=list` in the source and is
only ever assigned list values, so it is a plain list here. -/
structure Album where
  title : String
  release_date : Option PyDate := none
  release_year : Option Int := none
  album_type : String := "album"
  label : Option String := none
  catalog_number : Option String := none
  tracks : List Track := []
  musicbrainz_id : Option String := none
  spotify_id : Option String := none
  lastfm_id : Option String := none
  genre : List String := []
  country : Option String := none
  deriving DecidableEq, Repr

/-- The `extract_year_from_date` pydantic validator: when `release_year`
is not given, it is derived from `release_date`. Applied by the
constructors that build an `Album` from provider data. -/
def Album.applyYearValidator (a : Album) : Album :=
  match a.release_year, a.release_date with
  | none, some d => { a with release_year := some d.year }
  | _, _ => a

/-- `Album.track_count` property. -/
def Album.track_count (a : Album) : Nat := a.tracks.length

/-- `Album.total_duration_ms` property. -/
def Album.total_duration_ms (a : Album) : Int :=
  (a.tracks.map (fun t => t.duration_ms.getD 0)).sum

/-- `Artist` model. -/
structure Artist where
  name : String
  sort_name : Option String := none
  disambiguation : Option String := none
  musicbrainz_id : Option String := none
  spotify_id : Option String := none
  lastfm_id : Option String := none
  country : Option String := none
  begin_date : Option PyDate := none
  end_date : Option PyDate := none
  artist_type : Option String := none
  gender : Option String := none
  deriving DecidableEq, Repr

/-- `Discography` model. `metadata` is a free-form dict; kept as pairs. -/
structure Discography where
  artist : Artist
  albums : List Album := []
  crawled_at : Nat := 0
  sources : List String := []
  metadata : List (String × String) := []
  deriving DecidableEq, Repr

/-- `Discography.total_albums` property. -/
def Discography.total_albums (d : Discography) : Nat := d.albums.length

/-- `Discography.total_tracks` property: sum of `track_count` over albums. -/
def Discography.total_tracks (d : Discography) : Nat :=
  (d.albums.map Album.track_count).sum

/-- `CrawlStatus` model. -/
structure CrawlStatus where
  artist_name : String
  started_at : Nat := 0
  completed_at : Option Nat := none
  status : String := "in_progress"
  albums_found : Nat := 0
  tracks_found : Nat := 0
  errors : List String := []
  sources_used : List String := []
  deriving DecidableEq, Repr

/-- `CrawlStatus.mark_completed`, with the `datetime.now()` tick passed in. -/
def CrawlStatus.mark_completed (s : CrawlStatus) (now : Nat) : CrawlStatus :=
  { s with status := "completed", completed_at := some now }

/-- `CrawlStatus.mark_failed`, with the `datetime.now()` tick passed in. -/
def CrawlStatus.mark_failed (s : CrawlStatus) (now : Nat) (error : String) : CrawlStatus :=
  { s with status := "failed", completed_at := some now, errors := s.errors ++ [error] }

/-! ## RateLimiter (`src/crawlers/base_crawler.py`)

`acquire()` runs entirely inside `async with self._lock:`. The model makes
the lock explicit: `lockHeld` says whether the running task already holds
`self._lock` when it awaits `self._lock.acquire()`. An `asyncio.Lock` is
not reentrant, so awaiting it while the same task holds it never resumes.
Sleeping advances `now` by exactly the slept amount (single-task model). -/

/-- One possible outcome of a single top-level `acquire()` call. -/
inductive AcquireOutcome where
  /-- The call returned; `now` is the recorded timestamp and `requests`
  the timestamp list it leaves behind. -/
  | completes (now : ℚ) (requests : List ℚ)
  /-- The call suspends forever and never returns. -/
  | blocksForever
  /-- The call raises (`min` of an empty list). -/
  | raisesError
  deriving DecidableEq, Repr

/-- The pruning at the top of `acquire`: keep timestamps still inside the
trailing window. -/
def pruneRequests (timeWindow now : ℚ) (requests : List ℚ) : List ℚ :=
  requests.filter (fun t => now - t < timeWindow)

/-- `RateLimiter.acquire`. `lockHeld` is whether this task already holds
`self._lock`; the recursive call `await self.acquire()` happens with the
lock still held, hence with `lockHeld := true`. -/
def RateLimiter.acquire (maxRequests : Nat) (timeWindow : ℚ)
    (lockHeld : Bool) (now : ℚ) (requests : List ℚ) : AcquireOutcome :=
  if lockHeld then
    -- `async with self._lock` awaits a non-reentrant lock this same task
    -- holds: the coroutine suspends and is never resumed.
    .blocksForever
  else
    let pruned := pruneRequests timeWindow now requests
    if maxRequests ≤ pruned.length then
      match pruned.min? with
      | none => .raisesError  -- `min(self.requests)` on an empty list
      | some oldest =>
        let sleepTime := timeWindow - (now - oldest)
        if 0 < sleepTime then
          -- `await asyncio.sleep(sleep_time); return await self.acquire()`
          RateLimiter.acquire maxRequests timeWindow true (now + sleepTime) requests
        else .completes now (pruned ++ [now])
    else .completes now (pruned ++ [now])
termination_by (if lockHeld then 0 else 1)
decreasing_by simp_all

/-! ## RetryManager (`src/crawlers/base_crawler.py`)

`execute_with_retry` is modelled over an operation behaviour
`op : Nat → Except E A`: `op i` is what the `i`-th invocation of the
wrapped coroutine produces (a value or a raised exception). -/

/-- What one run of `execute_with_retry` did: its outcome, how many times
it invoked the operation, and the backoff delays it slept, in order. -/
structure RetryRun (E A : Type) where
  result : Except E A
  attemptsMade : Nat
  delays : List ℚ
  deriving Repr

/-- The body of the `for attempt in range(max_retries + 1)` loop, from
attempt number `attempt` on. -/
def RetryManager.runFrom (baseDelay maxDelay : ℚ) (maxRetries : Nat)
    (op : Nat → Except E A) (attempt : Nat) : RetryRun E A :=
  match op attempt with
  | .ok a => ⟨.ok a, 1, []⟩
  | .error e =>
    if attempt < maxRetries then
      let delay := min (baseDelay * 2 ^ attempt) maxDelay
      let rest := RetryManager.runFrom baseDelay maxDelay maxRetries op (attempt + 1)
      ⟨rest.result, rest.attemptsMade + 1, delay :: rest.delays⟩
    else
      -- loop ends; `raise last_exception` re-raises this very exception
      ⟨.error e, 1, []⟩
termination_by maxRetries - attempt
decreasing_by omega

/-- `RetryManager.execute_with_retry(func, ...)`. -/
def RetryManager.execute_with_retry (baseDelay maxDelay : ℚ) (maxRetries : Nat)
    (op : Nat → Except E A) : RetryRun E A :=
  RetryManager.runFrom baseDelay maxDelay maxRetries op 0

/-! ## Last.fm payload shape (`album.getinfo` responses as the merge reads them) -/

/-- A `{'name': ...}` tag entry; `tag.get('name', '')` reads it. -/
structure LfTag where
  name : Option String := none
  deriving DecidableEq, Repr

/-- The value under `lastfm_data['tags']['tag']`: the code distinguishes
`list`, `dict` (single tag) and anything else. -/
inductive LfTagsVal where
  | tagList (tags : List LfTag)
  | tagDict (tag : LfTag)
  | tagOther
  deriving DecidableEq, Repr

/-- One entry of `lastfm_data['tracks']['track']`; only `'duration'`
(a decimal string, seconds) is read. -/
structure LfTrack where
  duration : Option String := none
  deriving DecidableEq, Repr

/-- The value under `lastfm_data['tracks']['track']`: only a `list` value
triggers track enhancement. -/
inductive LfTracksVal where
  | trackList (tracks : List LfTrack)
  | trackOther
  deriving DecidableEq, Repr

/-- A Last.fm album payload as `_merge_album_data` reads it. Each field is
`none` when the corresponding key path is absent. -/
structure LastFmAlbum where
  tags : Option LfTagsVal := none
  label : Option String := none
  tracks : Option LfTracksVal := none
  deriving DecidableEq, Repr

/-! ## DiscographyCrawler merge (`src/discography_crawler.py`) -/

/-- The body of the `for i, mb_track in enumerate(mb_tracks)` loop of
`_enhance_tracks` for one canonical track paired with one Last.fm track:
duration is converted and filled only when `not enhanced_track.duration_ms`. -/
def enhanceTrack (mb_track : Track) (lastfm_track : LfTrack) : Track :=
  match lastfm_track.duration with
  | some s =>
    if intTruthy mb_track.duration_ms then mb_track
    else
      match pyInt s with
      | some seconds => { mb_track with duration_ms := some (seconds * 1000) }
      | none => mb_track  -- `except (ValueError, TypeError): pass`
  | none => mb_track

/-- `DiscographyCrawler._enhance_tracks`: positional pairing; canonical
tracks beyond the Last.fm list are appended as plain copies. -/
def enhance_tracks : List Track → List LfTrack → List Track
  | [], _ => []
  | t :: ts, [] => t :: enhance_tracks ts []
  | t :: ts, l :: ls => enhanceTrack t l :: enhance_tracks ts ls

/-- `DiscographyCrawler._merge_album_data`: deep-copies the MusicBrainz
album, then overlays Last.fm data (tags into `genre`, gap-fill of `label`,
positional track enhancement). -/
def merge_album_data (mb_album : Album) (lastfm_data : LastFmAlbum) : Album :=
  let enhanced := mb_album
  -- genres from Last.fm tags
  let enhanced :=
    match lastfm_data.tags with
    | some (.tagList tags) =>
        { enhanced with genre := (tags.take 5).map (fun t => t.name.getD "") }
    | some (.tagDict tag) => { enhanced with genre := [tag.name.getD ""] }
    | _ => enhanced
  -- label, only when `not enhanced_album.label`
  let enhanced :=
    if ¬ strTruthy enhanced.label ∧ lastfm_data.label.isSome then
      { enhanced with label := lastfm_data.label }
    else enhanced
  -- tracks, only when the `['tracks']['track']` value is a list
  match lastfm_data.tracks with
  | some (.trackList lastfm_tracks) =>
      { enhanced with tracks := enhance_tracks enhanced.tracks lastfm_tracks }
  | _ => enhanced

/-- How `_enhance_with_lastfm` processes one album, given the outcome of
the awaited `lastfm.get_album_info` call for it: the whole body sits in a
`try/except` that keeps the original album on error, and a falsy payload
also keeps the original. -/
def enhanceOne (lookup : Album → Except String (Option LastFmAlbum)) (album : Album) : Album :=
  match lookup album with
  | .ok (some lastfm_album) => merge_album_data album lastfm_album
  | .ok none => album
  | .error _ => album

/-- `DiscographyCrawler._enhance_with_lastfm`. `lookup` is the behaviour of
`make_request(lastfm.get_album_info, artist.name, album.title)` per album. -/
def enhance_with_lastfm (lastfm_api_key : Option String)
    (lookup : Album → Except String (Option LastFmAlbum))
    (albums : List Album) : List Album :=
  if ¬ strTruthy lastfm_api_key then albums
  else albums.map (enhanceOne lookup)

/-! ## The crawl pipeline (`DiscographyCrawler.get_artist_discography`) -/

/-- Result of one crawl: the value returned / error raised, and the
`CrawlStatus` object the crawler left behind. -/
structure CrawlOutcome where
  result : Except String Discography
  status : CrawlStatus
  deriving Repr

/-- The `except` branch of `get_artist_discography`: mark the status
failed with `str(e)` and raise the wrapping `CrawlerError`. -/
def crawlFail (artist_name : String) (now : Nat) (st : CrawlStatus) (e : String) : CrawlOutcome :=
  { result := .error ("Fallimento nel crawling per \x27" ++ artist_name ++ "\x27: " ++ e),
    status := st.mark_failed now e }

/-- `DiscographyCrawler.get_artist_discography`, over the behaviours of its
awaited provider calls: `searchRes` is what
`make_request(musicbrainz_client.search_artist, name)` produces, `albumsRes`
what `make_request(musicbrainz_client.get_artist_discography, id)` produces,
and `lookup` the per-album Last.fm lookup behaviour. `now` stands for the
`datetime.now()` ticks of this crawl. -/
def get_artist_discography (lastfm_api_key : Option String) (now : Nat)
    (artist_name : String)
    (searchRes : Except String (List Artist))
    (albumsRes : Except String (List Album))
    (lookup : Album → Except String (Option LastFmAlbum)) : CrawlOutcome :=
  let st : CrawlStatus := { artist_name := artist_name, started_at := now }
  match searchRes with
  | .error e => crawlFail artist_name now st e
  | .ok artists =>
    match artists with
    | [] => crawlFail artist_name now st
        ("Artista \x27" ++ artist_name ++ "\x27 non trovato")
    | primary_artist :: _ =>
      match albumsRes with
      | .error e => crawlFail artist_name now st e
      | .ok mb_albums =>
        let st := { st with albums_found := mb_albums.length }
        let enhanced_albums := enhance_with_lastfm lastfm_api_key lookup mb_albums
        let total_tracks := (enhanced_albums.map (fun a => a.tracks.length)).sum
        let st := { st with tracks_found := total_tracks }
        let discography : Discography :=
          { artist := primary_artist,
            albums := enhanced_albums,
            crawled_at := now,
            sources := "MusicBrainz" ::
              (if strTruthy lastfm_api_key then ["Last.fm"] else []) }
        { result := .ok discography, status := st.mark_completed now }

/-! ## MusicBrainz client (`src/services/musicbrainz_client.py`) -/

/-- An entry of the `artist-list` of a MusicBrainz search response, with
exactly the keys `_parse_artist` reads (absent key ↦ `none`). -/
structure RawArtist where
  name : Option String := none
  sort_name : Option String := none
  disambiguation : Option String := none
  id : Option String := none
  country : Option String := none
  life_span_begin : Option String := none
  life_span_end : Option String := none
  artist_type : Option String := none
  gender : Option String := none
  deriving DecidableEq, Repr

/-- `MusicBrainzClient._parse_date`: MusicBrainz partial dates
(`YYYY`, `YYYY-MM`, `YYYY-MM-DD`); missing fields default to the 1st;
unparsable input gives `None`. -/
def parse_date : Option String → Option PyDate
  | none => none
  | some s =>
    if s = "" then none  -- `if not date_str`
    else
      match pySplitDash s with
      | [ys] => (pyInt ys).bind (fun y => PyDate.make y 1 1)
      | [ys, ms] => (pyInt ys).bind (fun y => (pyInt ms).bind (fun m => PyDate.make y m 1))
      | [ys, ms, ds] =>
          (pyInt ys).bind (fun y => (pyInt ms).bind (fun m =>
            (pyInt ds).bind (fun d => PyDate.make y m d)))
      | _ => none

/-- `MusicBrainzClient._parse_artist`. -/
def parse_artist (artist_data : RawArtist) : Artist :=
  { name := artist_data.name.getD "",
    sort_name := artist_data.sort_name,
    disambiguation := artist_data.disambiguation,
    musicbrainz_id := artist_data.id,
    country := artist_data.country,
    begin_date := parse_date artist_data.life_span_begin,
    end_date := parse_date artist_data.life_span_end,
    artist_type := artist_data.artist_type,
    gender := artist_data.gender }

/-- `MusicBrainzClient.search_artist`: the whole body is wrapped in
`try/except` returning `[]`, so a raised library error never propagates.
`apiResult` is what the awaited `mb.search_artists` call produces
(`.ok` carries the parsed `artist-list` entries). -/
def search_artist (apiResult : Except String (List RawArtist)) : List Artist :=
  match apiResult with
  | .ok artist_list => artist_list.map parse_artist
  | .error _ => []

/-- An entry of the `release-list` of a release group, with the keys
`_parse_release_group` reads. -/
structure RawRelease where
  id : Option String := none
  date : Option String := none
  deriving DecidableEq, Repr

/-- An entry of the `release-group-list`, with the keys
`_parse_release_group` reads. -/
structure RawReleaseGroup where
  title : Option String := none
  primary_type : Option String := none
  id : Option String := none
  release_list : List RawRelease := []
  deriving DecidableEq, Repr

/-- `MusicBrainzClient._parse_release_group`. `fetchTracks` is the
behaviour of the awaited `self.get_album_tracks(release_id)` call (which
itself returns `[]` on any error). The release id is only used when
truthy. The `Album` constructor runs the `release_year` validator. -/
def parse_release_group (fetchTracks : String → List Track)
    (rg_data : RawReleaseGroup) : Option Album :=
  match rg_data.release_list with
  | [] => none
  | primary_release :: _ =>
    let tracks :=
      match primary_release.id with
      | some release_id => if release_id = "" then [] else fetchTracks release_id
      | none => []
    some (Album.applyYearValidator
      { title := rg_data.title.getD "",
        release_date := parse_date primary_release.date,
        album_type := (rg_data.primary_type.getD "album").toLower,
        musicbrainz_id := rg_data.id,
        tracks := tracks })

/-- The sort key of `albums.sort(key=lambda x: x.release_year or 0)`. -/
def albumSortKey (a : Album) : Int := a.release_year.getD 0

/-- One insertion step of a stable sort by key: the new element goes after
every element whose key is `≤` its own, as Python `list.sort` places it. -/
def insertByKey (key : Album → Int) (a : Album) : List Album → List Album
  | [] => [a]
  | b :: bs => if key b ≤ key a then b :: insertByKey key a bs else a :: b :: bs

/-- Stable sort by integer key, modelling Python `list.sort(key=...)`. -/
def sortByKey (key : Album → Int) : List Album → List Album
  | [] => []
  | a :: as => insertByKey key a (sortByKey key as)

/-- `MusicBrainzClient.get_artist_discography`: parse every release group,
drop failures, then sort by `release_year or 0`. `apiResult` is what the
awaited `mb.browse_release_groups` call produces; on a raised error the
`except` branch returns `[]`. -/
def mb_get_artist_discography (fetchTracks : String → List Track)
    (apiResult : Except String (List RawReleaseGroup)) : List Album :=
  match apiResult with
  | .ok rg_list => sortByKey albumSortKey (rg_list.filterMap (parse_release_group fetchTracks))
  | .error _ => []

/-! ## Lyrics metadata client (`src/services/lyrics_metadata_client.py`) -/

/-- A Genius song result, with the keys `_extract_safe_metadata` and
`_get_identification_snippet` read. `description_plain` is the value of
`song_data['description']['plain']` when that path exists and the
description is a dict. -/
structure GeniusSong where
  id : Option Int := none
  title : Option String := none
  primary_artist_name : Option String := none
  release_date_for_display : Option String := none
  pageviews : Option Int := none
  url : Option String := none
  album_name : Option String := none
  featured_artist_names : List (Option String) := []
  description_plain : Option String := none
  deriving DecidableEq, Repr

/-- `LyricsMetadataClient._get_identification_snippet`: at most the first
3 words of the public description joined with an ellipsis, else the
fallback built from the (public) song title. -/
def get_identification_snippet (song_data : GeniusSong) : Option String :=
  match song_data.description_plain with
  | some text =>
    let words := (pyWords text).take 3  -- MASSIMO 3 parole
    if 2 ≤ words.length then some (String.intercalate " " words ++ "...")
    else some ("Canzone: " ++ song_data.title.getD "N/A")
  | none => some ("Canzone: " ++ song_data.title.getD "N/A")

/-- The dict `_extract_safe_metadata` returns, as a record. The two
snippet keys are only set when the snippet is truthy. -/
structure SafeMetadata where
  genius_id : Option Int
  title : Option String
  artist_name : Option String
  release_date : Option String
  page_views : Option Int
  genius_url : Option String
  album : Option String
  featured_artists : List (Option String)
  copyright_notice : String
  fair_use_notice : String
  identification_snippet : Option String
  snippet_disclaimer : Option String
  deriving DecidableEq, Repr

/-- `LyricsMetadataClient._extract_safe_metadata`. -/
def extract_safe_metadata (song_data : GeniusSong) : SafeMetadata :=
  let snippet := get_identification_snippet song_data
  { genius_id := song_data.id,
    title := song_data.title,
    artist_name := song_data.primary_artist_name,
    release_date := song_data.release_date_for_display,
    page_views := song_data.pageviews,
    genius_url := song_data.url,
    album := song_data.album_name,
    featured_artists := song_data.featured_artist_names,
    copyright_notice :=
      "Testi protetti da copyright - visita genius_url per il contenuto completo",
    fair_use_notice := "Solo metadati per identificazione - uso educativo/ricerca",
    identification_snippet := if strTruthy snippet then snippet else none,
    snippet_disclaimer :=
      if strTruthy snippet then
        some "Snippet minimale solo per identificazione (Fair Use)"
      else none }

/-! ## Helper lemmas -/

theorem enhance_tracks_length (mb : List Track) (lf : List LfTrack) :
    (enhance_tracks mb lf).length = mb.length := by
  induction mb generalizing lf with
  | nil => cases lf <;> rfl
  | cons t ts ih =>
    cases lf with
    | nil => simpa [enhance_tracks] using ih []
    | cons l ls => simpa [enhance_tracks] using ih ls

theorem enhance_tracks_getElem? (mb : List Track) (lf : List LfTrack) (i : Nat) :
    (enhance_tracks mb lf)[i]? =
      (mb[i]?).map (fun t =>
        match lf[i]? with
        | some w => enhanceTrack t w
        | none => t) := by
  induction mb generalizing lf i with
  | nil => simp [enhance_tracks.eq_def]
  | cons t ts ih =>
    cases lf with
    | nil =>
      cases i with
      | zero => simp [enhance_tracks]
      | succ n => simpa [enhance_tracks] using ih [] n
    | cons l ls =>
      cases i with
      | zero => simp [enhance_tracks]
      | succ n => simpa [enhance_tracks] using ih ls n

/-- Field-by-field characterisation of `_merge_album_data`: `label` is
gap-filled, `genre` is replaced whenever tags are a list or a dict,
`tracks` go through the positional enhancement, and every other field
(in particular `release_year`) is untouched. -/
theorem merge_album_data_spec (mb : Album) (lf : LastFmAlbum) :
    ((merge_album_data mb lf).label =
      if ¬ strTruthy mb.label ∧ lf.label.isSome then lf.label else mb.label) ∧
    ((merge_album_data mb lf).genre =
      match lf.tags with
      | some (.tagList ts) => (ts.take 5).map (fun t => t.name.getD "")
      | some (.tagDict t) => [t.name.getD ""]
      | _ => mb.genre) ∧
    ((merge_album_data mb lf).tracks =
      match lf.tracks with
      | some (.trackList ws) => enhance_tracks mb.tracks ws
      | _ => mb.tracks) ∧
    (merge_album_data mb lf).release_year = mb.release_year := by
  rcases lf with ⟨tags, lab, trks⟩
  unfold merge_album_data
  rcases tags with _ | (ts | tg | _) <;> rcases trks with _ | (ws | _) <;>
    refine ⟨?_, ?_, ?_, ?_⟩ <;> dsimp only <;> split <;> rfl

theorem enhanceTrack_of_truthy (t : Track) (w : LfTrack)
    (h : intTruthy t.duration_ms = true) : enhanceTrack t w = t := by
  unfold enhanceTrack
  cases w.duration <;> simp [h]

theorem enhanceTrack_fills (t : Track) (w : LfTrack) (s : String) (n : Int)
    (hd : intTruthy t.duration_ms = false) (hw : w.duration = some s)
    (hs : pyInt s = some n) :
    enhanceTrack t w = { t with duration_ms := some (n * 1000) } := by
  unfold enhanceTrack
  rw [hw]
  simp [hd, hs]

theorem runFrom_attempts_pos (b M : ℚ) (mr : Nat) (op : Nat → Except E A) (a : Nat) :
    1 ≤ (RetryManager.runFrom b M mr op a).attemptsMade := by
  rw [RetryManager.runFrom.eq_def]
  cases op a with
  | ok v => exact le_refl 1
  | error e =>
    by_cases h : a < mr <;> simp [h]

theorem runFrom_attempts_le (b M : ℚ) (mr : Nat) (op : Nat → Except E A) :
    ∀ (n a : Nat), mr - a ≤ n → a ≤ mr →
      (RetryManager.runFrom b M mr op a).attemptsMade + a ≤ mr + 1 := by
  intro n
  induction n with
  | zero =>
    intro a hn ha
    rw [RetryManager.runFrom.eq_def]
    cases op a with
    | ok v => simpa using by omega
    | error e =>
      have h : ¬ a < mr := by omega
      simp [h]
      omega
  | succ n ih =>
    intro a hn ha
    rw [RetryManager.runFrom.eq_def]
    cases op a with
    | ok v => simpa using by omega
    | error e =>
      by_cases h : a < mr
      · have hrec := ih (a + 1) (by omega) (by omega)
        simp [h]
        omega
      · simp [h]
        omega

theorem runFrom_delays_shape (b M : ℚ) (mr : Nat) (op : Nat → Except E A) :
    ∀ (n a : Nat), mr - a ≤ n →
      (RetryManager.runFrom b M mr op a).delays =
        (List.range ((RetryManager.runFrom b M mr op a).attemptsMade - 1)).map
          (fun i => min (b * 2 ^ (a + i)) M) := by
  intro n
  induction n with
  | zero =>
    intro a hn
    rw [RetryManager.runFrom.eq_def]
    cases op a with
    | ok v => simp
    | error e =>
      have h : ¬ a < mr := by omega
      simp [h]
  | succ n ih =>
    intro a hn
    rw [RetryManager.runFrom.eq_def]
    cases op a with
    | ok v => simp
    | error e =>
      by_cases h : a < mr
      · simp only [h, if_true]
        have hd := ih (a + 1) (by omega)
        have hpos := runFrom_attempts_pos b M mr op (a + 1)
        have hm : (RetryManager.runFrom b M mr op (a + 1)).attemptsMade =
            ((RetryManager.runFrom b M mr op (a + 1)).attemptsMade - 1) + 1 := by omega
        rw [Nat.add_sub_cancel, hm, List.range_succ_eq_map, List.map_cons, List.map_map]
        congr 1
        rw [hd]
        apply List.map_congr_left
        intro i _
        simp only [Function.comp]
        have hsw : a + (i + 1) = a + 1 + i := by omega
        rw [hsw]
      · simp [h]

theorem runFrom_all_fail (b M : ℚ) (mr : Nat) (op : Nat → Except E A)
    (hop : ∀ i, i ≤ mr → ∃ e, op i = .error e) :
    ∀ (n a : Nat), mr - a ≤ n → a ≤ mr →
      (RetryManager.runFrom b M mr op a).result = op mr ∧
      (RetryManager.runFrom b M mr op a).attemptsMade = mr + 1 - a := by
  intro n
  induction n with
  | zero =>
    intro a hn ha
    have haa : a = mr := by omega
    subst haa
    obtain ⟨e, he⟩ := hop a (le_refl a)
    rw [RetryManager.runFrom.eq_def, he]
    simp [he]
  | succ n ih =>
    intro a hn ha
    by_cases h : a < mr
    · obtain ⟨e, he⟩ := hop a ha
      rw [RetryManager.runFrom.eq_def, he]
      have hrec := ih (a + 1) (by omega) (by omega)
      simp only [h, if_true]
      refine ⟨hrec.1, ?_⟩
      dsimp only
      omega
    · have haa : a = mr := by omega
      subst haa
      obtain ⟨e, he⟩ := hop a (le_refl a)
      rw [RetryManager.runFrom.eq_def, he]
      simp [he]

theorem runFrom_first_success (b M : ℚ) (mr : Nat) (op : Nat → Except E A)
    (k : Nat) (v : A) (hk : k ≤ mr)
    (hfail : ∀ j, j < k → ∃ e, op j = .error e) (hok : op k = .ok v) :
    ∀ (n a : Nat), k - a ≤ n → a ≤ k →
      (RetryManager.runFrom b M mr op a).result = .ok v ∧
      (RetryManager.runFrom b M mr op a).attemptsMade = k + 1 - a := by
  intro n
  induction n with
  | zero =>
    intro a hn ha
    have haa : a = k := by omega
    subst haa
    rw [RetryManager.runFrom.eq_def, hok]
    simp
  | succ n ih =>
    intro a hn ha
    by_cases hak : a = k
    · subst hak
      rw [RetryManager.runFrom.eq_def, hok]
      simp
    · have hlt : a < k := by omega
      obtain ⟨e, he⟩ := hfail a hlt
      rw [RetryManager.runFrom.eq_def, he]
      have hamr : a < mr := by omega
      have hrec := ih (a + 1) (by omega) (by omega)
      simp only [hamr, if_true]
      refine ⟨hrec.1, ?_⟩
      dsimp only
      omega

theorem mem_insertByKey (key : Album → Int) (a x : Album) (l : List Album) :
    x ∈ insertByKey key a l ↔ x = a ∨ x ∈ l := by
  induction l with
  | nil => simp [insertByKey]
  | cons b bs ih =>
    unfold insertByKey
    by_cases h : key b ≤ key a
    · rw [if_pos h]
      simp only [List.mem_cons, ih]
      tauto
    · rw [if_neg h]
      simp only [List.mem_cons]

theorem sorted_insertByKey (key : Album → Int) (a : Album) (l : List Album)
    (h : List.Pairwise (fun x y => key x ≤ key y) l) :
    List.Pairwise (fun x y => key x ≤ key y) (insertByKey key a l) := by
  induction l with
  | nil => simp [insertByKey]
  | cons b bs ih =>
    rcases h with - | ⟨hb, hbs⟩
    unfold insertByKey
    by_cases hk : key b ≤ key a
    · rw [if_pos hk]
      refine List.Pairwise.cons ?_ (ih hbs)
      intro y hy
      rcases (mem_insertByKey key a y bs).mp hy with rfl | hy
      · exact hk
      · exact hb y hy
    · rw [if_neg hk]
      have hak : key a ≤ key b := le_of_not_le hk
      refine List.Pairwise.cons ?_ (List.Pairwise.cons hb hbs)
      intro y hy
      rcases List.mem_cons.mp hy with rfl | hy
      · exact hak
      · exact le_trans hak (hb y hy)

theorem sorted_sortByKey (key : Album → Int) (l : List Album) :
    List.Pairwise (fun x y => key x ≤ key y) (sortByKey key l) := by
  induction l with
  | nil => exact List.Pairwise.nil
  | cons a as ih => exact sorted_insertByKey key a (sortByKey key as) ih

theorem mem_sortByKey (key : Album → Int) (x : Album) (l : List Album) :
    x ∈ sortByKey key l ↔ x ∈ l := by
  induction l with
  | nil => simp [sortByKey]
  | cons a as ih =>
    unfold sortByKey
    rw [mem_insertByKey, ih, List.mem_cons]

theorem parse_date_year_pos (o : Option String) (d : PyDate)
    (h : parse_date o = some d) : 1 ≤ d.year := by
  unfold parse_date at h
  cases o with
  | none => cases h
  | some s =>
    dsimp only at h
    by_cases hs : s = ""
    · rw [if_pos hs] at h
      cases h
    · rw [if_neg hs] at h
      split at h
      · obtain ⟨y, _, hmk⟩ := Option.bind_eq_some.mp h
        exact PyDate.make_year_pos hmk
      · obtain ⟨y, _, h2⟩ := Option.bind_eq_some.mp h
        obtain ⟨m, _, hmk⟩ := Option.bind_eq_some.mp h2
        exact PyDate.make_year_pos hmk
      · obtain ⟨y, _, h2⟩ := Option.bind_eq_some.mp h
        obtain ⟨m, _, h3⟩ := Option.bind_eq_some.mp h2
        obtain ⟨dd, _, hmk⟩ := Option.bind_eq_some.mp h3
        exact PyDate.make_year_pos hmk
      · cases h

theorem parse_release_group_year_pos (fetchTracks : String → List Track)
    (rg : RawReleaseGroup) (alb : Album)
    (h : parse_release_group fetchTracks rg = some alb) :
    ∀ y, alb.release_year = some y → 1 ≤ y := by
  intro y hy
  unfold parse_release_group at h
  cases hrl : rg.release_list with
  | nil => rw [hrl] at h; cases h
  | cons primary_release rest =>
    rw [hrl] at h
    dsimp only at h
    rw [Option.some_inj] at h
    subst h
    unfold Album.applyYearValidator at hy
    cases hpd : parse_date primary_release.date with
    | none => rw [hpd] at hy; cases hy
    | some dt =>
      rw [hpd] at hy
      dsimp only at hy
      rw [Option.some_inj] at hy
      rw [← hy]
      exact parse_date_year_pos primary_release.date dt hpd

theorem mb_discography_year_pos (fetchTracks : String → List Track)
    (apiResult : Except String (List RawReleaseGroup)) (alb : Album)
    (h : alb ∈ mb_get_artist_discography fetchTracks apiResult) :
    ∀ y, alb.release_year = some y → 1 ≤ y := by
  unfold mb_get_artist_discography at h
  cases apiResult with
  | error e => cases h
  | ok rgs =>
    rw [mem_sortByKey] at h
    obtain ⟨rg, _, hrg⟩ := List.mem_filterMap.mp h
    exact parse_release_group_year_pos fetchTracks rg alb hrg

theorem enhanceOne_release_year (lookup : Album → Except String (Option LastFmAlbum))
    (a : Album) : (enhanceOne lookup a).release_year = a.release_year := by
  unfold enhanceOne
  cases lookup a with
  | error e => rfl
  | ok o =>
    cases o with
    | none => rfl
    | some lf => exact (merge_album_data_spec a lf).2.2.2

theorem enhance_with_lastfm_sorted (key : Option String)
    (lookup : Album → Except String (Option LastFmAlbum)) (albums : List Album)
    (h : List.Pairwise (fun x y => albumSortKey x ≤ albumSortKey y) albums) :
    List.Pairwise (fun x y => albumSortKey x ≤ albumSortKey y)
      (enhance_with_lastfm key lookup albums) := by
  unfold enhance_with_lastfm
  split
  · exact h
  · rw [List.pairwise_map]
    refine List.Pairwise.imp ?_ h
    intro a b hab
    unfold albumSortKey
    rw [enhanceOne_release_year, enhanceOne_release_year]
    exact hab

/-! ## Claims -/

/-- A canonical album whose primary-provider `genre` and `label` are
already present and whose one track has duration `0`. -/
def c1CanonicalAlbum : Album :=
  { title := "Alpha",
    genre := ["Y"],
    label := some "Y",
    tracks := [{ title := "t1", track_number := 1, duration_ms := some 0 }] }

/-- An enrichment payload carrying a tag list, a label and a track list. -/
def c1Enrichment : LastFmAlbum :=
  { tags := some (.tagList [{ name := some "X" }]),
    label := some "X",
    tracks := some (.trackList [{ duration := some "7" }]) }

/-- Claim C1, counterexample. The claim says the merge never overwrites a
primary-provider field value that is already present, naming genre as a
gap-fill-only field, and says track duration is filled only when the
canonical duration is absent. On a canonical album with `genre = ["Y"]`
and a track with duration `0` (present), merging a payload with tags
`["X"]` and duration `"7"` overwrites the genre to `["X"]` and fills the
duration, refuting the claim as stated (the label is correctly kept). -/
theorem c1_merge_never_overwrites_counterexample :
    c1CanonicalAlbum.genre = ["Y"] ∧
    (merge_album_data c1CanonicalAlbum c1Enrichment).genre = ["X"] ∧
    (c1CanonicalAlbum.tracks.map Track.duration_ms = [some 0]) ∧
    ((merge_album_data c1CanonicalAlbum c1Enrichment).tracks.map Track.duration_ms
      = [some 7000]) ∧
    (merge_album_data c1CanonicalAlbum c1Enrichment).label = some "Y" := by
  decide

/-- Claim C1, amended: in `_merge_album_data`, the label is filled only
when the canonical label is absent (or empty) and is never overwritten
when non-empty; track duration is filled only when the canonical duration
is falsy (absent or zero) and a present non-zero duration is never
touched; but genre is NOT gap-filled: whenever the payload carries tags
(as a list or single dict), the canonical genre is replaced outright,
even when already present. In particular canonical `label=None` merged
with enrichment label `X` gives label `X`, and canonical label `Y` is
retained. -/
theorem c1_merge_overlay_amended (mb : Album) (lf : LastFmAlbum) :
    (strTruthy mb.label = true → (merge_album_data mb lf).label = mb.label) ∧
    (mb.label = none → lf.label.isSome = true →
      (merge_album_data mb lf).label = lf.label) ∧
    (∀ ts, lf.tags = some (.tagList ts) →
      (merge_album_data mb lf).genre = (ts.take 5).map (fun t => t.name.getD "")) ∧
    (lf.tags = none → (merge_album_data mb lf).genre = mb.genre) ∧
    (∀ ws, lf.tracks = some (.trackList ws) →
      (merge_album_data mb lf).tracks = enhance_tracks mb.tracks ws) ∧
    (∀ t w, intTruthy t.duration_ms = true → enhanceTrack t w = t) ∧
    (∀ t w s n, intTruthy t.duration_ms = false → w.duration = some s →
      pyInt s = some n →
      enhanceTrack t w = { t with duration_ms := some (n * 1000) }) := by
  obtain ⟨hlab, hgen, htr, _⟩ := merge_album_data_spec mb lf
  refine ⟨?_, ?_, ?_, ?_, ?_, ?_, ?_⟩
  · intro h
    rw [hlab, if_neg]
    simp [h]
  · intro h hl
    rw [hlab, if_pos]
    exact ⟨by simp [h, strTruthy], hl⟩
  · intro ts hts
    rw [hgen, hts]
  · intro hts
    rw [hgen, hts]
  · intro ws hws
    rw [htr, hws]
  · exact fun t w h => enhanceTrack_of_truthy t w h
  · exact fun t w s n hd hw hs => enhanceTrack_fills t w s n hd hw hs

/-- Claim C1, witness: the amended theorem applied at concrete inputs —
a kept label `Y`, a filled label `X`, an overwritten genre, and both
duration behaviours. -/
theorem c1_merge_overlay_witness :
    (merge_album_data c1CanonicalAlbum c1Enrichment).label = c1CanonicalAlbum.label ∧
    (merge_album_data { title := "B" } c1Enrichment).label = some "X" ∧
    (merge_album_data c1CanonicalAlbum c1Enrichment).genre = ["X"] ∧
    (merge_album_data { title := "B" } { tags := none }).genre = [] ∧
    (merge_album_data c1CanonicalAlbum c1Enrichment).tracks =
      enhance_tracks c1CanonicalAlbum.tracks [{ duration := some "7" }] ∧
    enhanceTrack { title := "t", track_number := 1, duration_ms := some 5000 }
      { duration := some "7" } =
      { title := "t", track_number := 1, duration_ms := some 5000 } ∧
    enhanceTrack { title := "t", track_number := 1 } { duration := some "7" } =
      { title := "t", track_number := 1, duration_ms := some 7000 } := by
  refine ⟨(c1_merge_overlay_amended c1CanonicalAlbum c1Enrichment).1 (by decide),
    (c1_merge_overlay_amended { title := "B" } c1Enrichment).2.1 rfl rfl,
    (c1_merge_overlay_amended c1CanonicalAlbum c1Enrichment).2.2.1 _ rfl,
    (c1_merge_overlay_amended { title := "B" } { tags := none }).2.2.2.1 rfl,
    (c1_merge_overlay_amended c1CanonicalAlbum c1Enrichment).2.2.2.2.1 _ rfl,
    (c1_merge_overlay_amended c1CanonicalAlbum c1Enrichment).2.2.2.2.2.1 _ _ (by decide),
    ?_⟩
  have h := (c1_merge_overlay_amended c1CanonicalAlbum c1Enrichment).2.2.2.2.2.2
    { title := "t", track_number := 1 } { duration := some "7" } "7" 7 (by decide) rfl (by decide)
  simpa using h

/-- Claim C2: `execute_with_retry` invokes the operation at most
`max_retries + 1` times; it retries on any raised exception (`E` and the
error values are arbitrary); between attempts it waits
`min(base_delay * 2^attempt, max_delay)` seconds, in attempt order; if
every attempt raises it re-raises the exact exception of the last
attempt, unwrapped; and if some attempt succeeds it returns that value
with no further invocations. -/
theorem c2_execute_with_retry {E A : Type} (base maxD : ℚ) (maxRetries : Nat)
    (op : Nat → Except E A) :
    (RetryManager.execute_with_retry base maxD maxRetries op).attemptsMade
      ≤ maxRetries + 1 ∧
    ((RetryManager.execute_with_retry base maxD maxRetries op).delays =
      (List.range
          ((RetryManager.execute_with_retry base maxD maxRetries op).attemptsMade - 1)).map
        (fun i => min (base * 2 ^ i) maxD)) ∧
    ((∀ i, i ≤ maxRetries → ∃ e, op i = .error e) →
      (RetryManager.execute_with_retry base maxD maxRetries op).result = op maxRetries ∧
      (RetryManager.execute_with_retry base maxD maxRetries op).attemptsMade
        = maxRetries + 1) ∧
    (∀ (k : Nat) (v : A), k ≤ maxRetries → (∀ j, j < k → ∃ e, op j = .error e) →
      op k = .ok v →
      (RetryManager.execute_with_retry base maxD maxRetries op).result = .ok v ∧
      (RetryManager.execute_with_retry base maxD maxRetries op).attemptsMade = k + 1) := by
  refine ⟨?_, ?_, ?_, ?_⟩
  · have h := runFrom_attempts_le base maxD maxRetries op maxRetries 0 (by omega) (by omega)
    unfold RetryManager.execute_with_retry
    omega
  · have h := runFrom_delays_shape base maxD maxRetries op maxRetries 0 (by omega)
    unfold RetryManager.execute_with_retry
    simpa using h
  · intro hop
    have h := runFrom_all_fail base maxD maxRetries op hop maxRetries 0 (by omega) (by omega)
    unfold RetryManager.execute_with_retry
    exact ⟨h.1, by omega⟩
  · intro k v hk hfail hok
    have h := runFrom_first_success base maxD maxRetries op k v hk hfail hok k 0
      (by omega) (by omega)
    unfold RetryManager.execute_with_retry
    exact ⟨h.1, by omega⟩

/-- Claim C2, witness: an operation that always raises `"boom"` with
`max_retries = 1` re-raises `"boom"` after 2 attempts, and an operation
failing twice then returning `42` with `max_retries = 3` returns `42`
after 3 attempts. -/
theorem c2_execute_with_retry_witness :
    (RetryManager.execute_with_retry (1 : ℚ) 60 1
        (fun _ => (Except.error "boom" : Except String Nat))).result
      = .error "boom" ∧
    (RetryManager.execute_with_retry (1 : ℚ) 60 1
        (fun _ => (Except.error "boom" : Except String Nat))).attemptsMade = 2 ∧
    (RetryManager.execute_with_retry (1 : ℚ) 60 3
        (fun i => if i < 2 then .error "boom" else (Except.ok 42 : Except String Nat))).result
      = .ok 42 ∧
    (RetryManager.execute_with_retry (1 : ℚ) 60 3
        (fun i => if i < 2 then .error "boom" else (Except.ok 42 : Except String Nat))).attemptsMade
      = 3 := by
  have h1 := (c2_execute_with_retry (1 : ℚ) 60 1
      (fun _ => (Except.error "boom" : Except String Nat))).2.2.1
    (fun i _ => ⟨"boom", rfl⟩)
  have h2 := (c2_execute_with_retry (1 : ℚ) 60 3
      (fun i => if i < 2 then .error "boom" else (Except.ok 42 : Except String Nat))).2.2.2
    2 42 (by decide)
    (fun j hj =>
      match j, hj with
      | 0, _ => ⟨"boom", rfl⟩
      | 1, _ => ⟨"boom", rfl⟩)
    rfl
  exact ⟨h1.1, h1.2, h2.1, h2.2⟩

/-- Claim C3, failing input. With `max_requests = 1`, `time_window = 60`
and one call already recorded at `t = 0`, a fresh `acquire()` at `t = 0`
finds the window full, sleeps 60 seconds while still holding
`self._lock`, and then recursively awaits `self.acquire()` — which blocks
forever on the non-reentrant `asyncio.Lock` this task already holds, so
the (N+1)-th acquisition never records a call at all, instead of blocking
only until the oldest entry leaves the window. An `acquire()` on a
non-full window does complete and records its call. -/
theorem c3_rate_limiter_deadlock :
    RateLimiter.acquire 1 60 false 0 [0] = .blocksForever ∧
    RateLimiter.acquire 1 60 false 0 [] = .completes 0 [0] := by
  constructor
  · rw [RateLimiter.acquire.eq_def]
    norm_num [pruneRequests]
    rw [RateLimiter.acquire.eq_def]
    norm_num
  · rw [RateLimiter.acquire.eq_def]
    norm_num [pruneRequests]

/-- Claim C4: with a truthy Last.fm key, if the enrichment lookup for one
album raises or returns no data, that album appears in the resulting
discography unmodified, every other album is still processed by its own
lookup, the crawl completes, and `sources` lists both providers. -/
theorem c4_enrichment_failure_isolated (key : Option String) (now : Nat)
    (name eMsg : String) (a : Artist) (rest : List Artist) (albums : List Album)
    (lookup : Album → Except String (Option LastFmAlbum)) (i : Nat)
    (hkey : strTruthy key = true) (hi : i < albums.length)
    (hfail : lookup albums[i] = .error eMsg ∨ lookup albums[i] = .ok none) :
    ∃ d, (get_artist_discography key now name (.ok (a :: rest)) (.ok albums) lookup).result
        = .ok d ∧
      d.albums.length = albums.length ∧
      d.albums[i]? = some albums[i] ∧
      (∀ j : Nat, d.albums[j]? = (albums[j]?).map (enhanceOne lookup)) ∧
      d.sources = ["MusicBrainz", "Last.fm"] ∧
      (get_artist_discography key now name (.ok (a :: rest)) (.ok albums) lookup).status.status
        = "completed" := by
  refine ⟨_, rfl, ?_, ?_, ?_, ?_, rfl⟩
  · simp [enhance_with_lastfm, hkey]
  · have hone : enhanceOne lookup albums[i] = albums[i] := by
      unfold enhanceOne
      rcases hfail with h | h <;> rw [h]
    simp [enhance_with_lastfm, hkey, List.getElem?_map,
      List.getElem?_eq_getElem hi, hone]
  · intro j
    simp [enhance_with_lastfm, hkey, List.getElem?_map]
  · simp [hkey]

/-- Claim C4, witness: two albums, the first one's lookup raises — it is
kept unmodified, the second is processed, and both sources appear. -/
theorem c4_enrichment_failure_isolated_witness :
    ∃ d, (get_artist_discography (some "k") 5 "Nirvana"
        (.ok [{ name := "Nirvana" }])
        (.ok [{ title := "Bleach" }, { title := "Nevermind" }])
        (fun alb => if alb.title = "Bleach" then .error "boom" else .ok none)).result
      = .ok d ∧
      d.albums.length = 2 ∧
      d.albums[0]? = some { title := "Bleach" } ∧
      (∀ j : Nat, d.albums[j]? =
        (([{ title := "Bleach" }, { title := "Nevermind" }] : List Album)[j]?).map
          (enhanceOne (fun alb => if alb.title = "Bleach" then .error "boom" else .ok none))) ∧
      d.sources = ["MusicBrainz", "Last.fm"] ∧
      (get_artist_discography (some "k") 5 "Nirvana"
        (.ok [{ name := "Nirvana" }])
        (.ok [{ title := "Bleach" }, { title := "Nevermind" }])
        (fun alb => if alb.title = "Bleach" then .error "boom" else .ok none)).status.status
      = "completed" :=
  c4_enrichment_failure_isolated (some "k") 5 "Nirvana" "boom"
    { name := "Nirvana" } [] [{ title := "Bleach" }, { title := "Nevermind" }]
    (fun alb => if alb.title = "Bleach" then .error "boom" else .ok none) 0
    (by decide) (by decide) (Or.inl rfl)

/-- Claim C5: when the primary-provider search returns an empty candidate
list, the crawl raises an error whose message carries the queried artist
name (no discography is returned), and the `CrawlStatus` is marked failed
with the error message appended and a completion timestamp set. -/
theorem c5_artist_not_found (key : Option String) (now : Nat) (name : String)
    (albumsRes : Except String (List Album))
    (lookup : Album → Except String (Option LastFmAlbum)) :
    (get_artist_discography key now name (.ok []) albumsRes lookup).result =
      .error ("Fallimento nel crawling per \x27" ++ name ++ "\x27: " ++
        ("Artista \x27" ++ name ++ "\x27 non trovato")) ∧
    (∃ pre post,
      (get_artist_discography key now name (.ok []) albumsRes lookup).result =
        .error (pre ++ name ++ post)) ∧
    (get_artist_discography key now name (.ok []) albumsRes lookup).status.status
      = "failed" ∧
    (get_artist_discography key now name (.ok []) albumsRes lookup).status.completed_at
      = some now ∧
    (get_artist_discography key now name (.ok []) albumsRes lookup).status.errors
      = ["Artista \x27" ++ name ++ "\x27 non trovato"] := by
  refine ⟨rfl, ?_, rfl, rfl, rfl⟩
  refine ⟨"Fallimento nel crawling per \x27",
    "\x27: " ++ ("Artista \x27" ++ name ++ "\x27 non trovato"), ?_⟩
  simp [get_artist_discography, crawlFail, String.append_assoc]

/-- Claim C9: `MusicBrainzClient.search_artist` swallows every raised
library error and returns the empty list, so at the aggregation engine a
failed search is indistinguishable from an empty search result and
surfaces as the same "artist not found" crawl error. -/
theorem c9_search_failure_becomes_not_found (e : String) (key : Option String)
    (now : Nat) (name : String) (albumsRes : Except String (List Album))
    (lookup : Album → Except String (Option LastFmAlbum)) :
    search_artist (.error e) = [] ∧
    get_artist_discography key now name (.ok (search_artist (.error e))) albumsRes lookup
      = get_artist_discography key now name (.ok []) albumsRes lookup ∧
    (get_artist_discography key now name (.ok (search_artist (.error e)))
        albumsRes lookup).result =
      .error ("Fallimento nel crawling per \x27" ++ name ++ "\x27: " ++
        ("Artista \x27" ++ name ++ "\x27 non trovato")) :=
  ⟨rfl, rfl, rfl⟩

/-- Claim C6: the track merge is positional — the result has exactly as
many tracks as the canonical list, the i-th canonical track is paired
with the i-th enrichment track, and every canonical track at an index
beyond the enrichment list appears unmodified. -/
theorem c6_enhance_tracks_positional (mb : List Track) (lf : List LfTrack) :
    (enhance_tracks mb lf).length = mb.length ∧
    (∀ i : Nat, (enhance_tracks mb lf)[i]? =
      (mb[i]?).map (fun t =>
        match lf[i]? with
        | some w => enhanceTrack t w
        | none => t)) ∧
    (∀ i : Nat, lf.length ≤ i → (enhance_tracks mb lf)[i]? = mb[i]?) := by
  refine ⟨enhance_tracks_length mb lf, fun i => enhance_tracks_getElem? mb lf i, ?_⟩
  intro i hi
  have h0 : lf[i]? = none := List.getElem?_eq_none hi
  rw [enhance_tracks_getElem? mb lf i, h0]
  cases mb[i]? <;> rfl

/-- Claim C6, witness: a two-track canonical list against a one-track
enrichment list — the first track is paired, the trailing one is kept. -/
theorem c6_enhance_tracks_positional_witness :
    (enhance_tracks
      [{ title := "a", track_number := 1 }, { title := "b", track_number := 2 }]
      [{ duration := some "7" }]).length = 2 ∧
    (enhance_tracks
      [{ title := "a", track_number := 1 }, { title := "b", track_number := 2 }]
      [{ duration := some "7" }])[1]? = some { title := "b", track_number := 2 } := by
  refine ⟨(c6_enhance_tracks_positional _ _).1, ?_⟩
  rw [(c6_enhance_tracks_positional
    [{ title := "a", track_number := 1 }, { title := "b", track_number := 2 }]
    [{ duration := some "7" }]).2.2 1 (by decide)]
  rfl

/-- A Genius result with no public description and a seven-word title. -/
def c8LongTitleSong : GeniusSong :=
  { title := some "uno due tre quattro cinque sei sette" }

/-- Claim C8, counterexample. The claim caps every identification snippet
at approximately 3 words. When the song has no public description, the
fallback snippet is `"Canzone: "` followed by the full (public) song
title, which is not word-capped: a seven-word title yields an
eight-word snippet. -/
theorem c8_snippet_cap_counterexample :
    (extract_safe_metadata c8LongTitleSong).identification_snippet =
      some "Canzone: uno due tre quattro cinque sei sette" ∧
    wordCount "Canzone: uno due tre quattro cinque sei sette" = 8 := by
  decide

/-- Claim C8, amended: any identification snippet the metadata result
contains is either built from at most the first 3 words of the provider's
public description followed by an ellipsis, or is the fixed prefix
`"Canzone: "` followed by the (already public) song title, which is not
word-capped; whenever a snippet is present, the result also carries the
snippet disclaimer string, and a fixed copyright notice is always
present; no full lyric text appears anywhere in the result. -/
theorem c8_snippet_policy_amended (song : GeniusSong) :
    (extract_safe_metadata song).copyright_notice =
      "Testi protetti da copyright - visita genius_url per il contenuto completo" ∧
    (∀ s, (extract_safe_metadata song).identification_snippet = some s →
      (extract_safe_metadata song).snippet_disclaimer =
        some "Snippet minimale solo per identificazione (Fair Use)") ∧
    (∀ s, (extract_safe_metadata song).identification_snippet = some s →
      (∃ text, song.description_plain = some text ∧
        s = String.intercalate " " ((pyWords text).take 3) ++ "..." ∧
        ((pyWords text).take 3).length ≤ 3) ∨
      s = "Canzone: " ++ song.title.getD "N/A") := by
  have hid : (extract_safe_metadata song).identification_snippet
      = (if strTruthy (get_identification_snippet song)
          then get_identification_snippet song else none) := rfl
  have hdis : (extract_safe_metadata song).snippet_disclaimer
      = (if strTruthy (get_identification_snippet song)
          then some "Snippet minimale solo per identificazione (Fair Use)"
          else none) := rfl
  refine ⟨rfl, ?_, ?_⟩
  · intro s h
    rw [hid] at h
    by_cases hc : strTruthy (get_identification_snippet song)
    · rw [hdis, if_pos hc]
    · rw [if_neg hc] at h
      cases h
  · intro s h
    rw [hid] at h
    by_cases hc : strTruthy (get_identification_snippet song)
    · rw [if_pos hc] at h
      unfold get_identification_snippet at h
      cases hdp : song.description_plain with
      | none =>
        rw [hdp] at h
        right
        exact (Option.some_inj.mp h).symm
      | some text =>
        rw [hdp] at h
        dsimp only at h
        by_cases h2 : 2 ≤ ((pyWords text).take 3).length
        · rw [if_pos h2] at h
          left
          exact ⟨text, rfl, (Option.some_inj.mp h).symm, List.length_take_le 3 _⟩
        · rw [if_neg h2] at h
          right
          exact (Option.some_inj.mp h).symm
    · rw [if_neg hc] at h
      cases h

/-- A Genius result with a four-word public description. -/
def c8DescribedSong : GeniusSong :=
  { title := some "T", description_plain := some "alfa beta gamma delta" }

/-- Claim C8, witness: on a song with a four-word description the snippet
is the first 3 words plus an ellipsis and the disclaimer accompanies it. -/
theorem c8_snippet_policy_witness :
    (extract_safe_metadata c8DescribedSong).snippet_disclaimer =
      some "Snippet minimale solo per identificazione (Fair Use)" ∧
    ((∃ text, c8DescribedSong.description_plain = some text ∧
        "alfa beta gamma..." = String.intercalate " " ((pyWords text).take 3) ++ "..." ∧
        ((pyWords text).take 3).length ≤ 3) ∨
      "alfa beta gamma..." = "Canzone: " ++ c8DescribedSong.title.getD "N/A") :=
  ⟨(c8_snippet_policy_amended c8DescribedSong).2.1 "alfa beta gamma..." (by decide),
   (c8_snippet_policy_amended c8DescribedSong).2.2 "alfa beta gamma..." (by decide)⟩

/-- Claim C7: for every `Discography`, `total_tracks` is the sum over the
albums of the number of tracks of each album. -/
theorem c7_total_tracks_sum (d : Discography) :
    d.total_tracks = (d.albums.map (fun a => a.tracks.length)).sum := by
  unfold Discography.total_tracks Album.track_count
  rfl

/-- Claim C10: the album list `MusicBrainzClient.get_artist_discography`
returns is in non-decreasing order of `release_year` with a missing year
treated as 0 — and since every parsed year is at least 1, albums lacking
a year come first; the crawl's `Discography.albums` inherits this
ordering (the enrichment map preserves `release_year` and positions). -/
theorem c10_album_ordering (fetchTracks : String → List Track)
    (apiResult : Except String (List RawReleaseGroup)) (key : Option String)
    (lookup : Album → Except String (Option LastFmAlbum)) :
    List.Pairwise (fun x y => albumSortKey x ≤ albumSortKey y)
      (mb_get_artist_discography fetchTracks apiResult) ∧
    List.Pairwise (fun x y => x.release_year.isSome = true → y.release_year.isSome = true)
      (mb_get_artist_discography fetchTracks apiResult) ∧
    List.Pairwise (fun x y => albumSortKey x ≤ albumSortKey y)
      (enhance_with_lastfm key lookup (mb_get_artist_discography fetchTracks apiResult)) ∧
    (∀ (now : Nat) (name : String) (a : Artist) (rest : List Artist) (d : Discography),
      (get_artist_discography key now name (.ok (a :: rest))
          (.ok (mb_get_artist_discography fetchTracks apiResult)) lookup).result = .ok d →
      d.albums = enhance_with_lastfm key lookup
        (mb_get_artist_discography fetchTracks apiResult) ∧
      List.Pairwise (fun x y => albumSortKey x ≤ albumSortKey y) d.albums) := by
  have hsorted : List.Pairwise (fun x y => albumSortKey x ≤ albumSortKey y)
      (mb_get_artist_discography fetchTracks apiResult) := by
    unfold mb_get_artist_discography
    cases apiResult with
    | error e => exact List.Pairwise.nil
    | ok rgs => exact sorted_sortByKey albumSortKey _
  have hnonefirst : List.Pairwise
      (fun x y => x.release_year.isSome = true → y.release_year.isSome = true)
      (mb_get_artist_discography fetchTracks apiResult) := by
    refine List.Pairwise.imp_of_mem ?_ hsorted
    intro x y hx hy hk hxs
    obtain ⟨yx, hyx⟩ := Option.isSome_iff_exists.mp hxs
    have h1x : 1 ≤ yx := mb_discography_year_pos fetchTracks apiResult x hx yx hyx
    have hky : 1 ≤ albumSortKey y := by
      have : albumSortKey x = yx := by rw [albumSortKey, hyx]; rfl
      omega
    cases hys : y.release_year with
    | none =>
      rw [albumSortKey, hys] at hky
      simp at hky
    | some _ => rfl
  refine ⟨hsorted, hnonefirst, enhance_with_lastfm_sorted key lookup _ hsorted, ?_⟩
  intro now name a rest d h
  have h2 : Except.ok
      ({ artist := a,
         albums := enhance_with_lastfm key lookup
           (mb_get_artist_discography fetchTracks apiResult),
         crawled_at := now,
         sources := "MusicBrainz" :: (if strTruthy key then ["Last.fm"] else []),
         metadata := [] } : Discography) = Except.ok d := h
  cases h2
  exact ⟨rfl, enhance_with_lastfm_sorted key lookup _ hsorted⟩

/-- Two raw release groups: one dated 1999, one with no usable date. -/
def c10RawGroups : List RawReleaseGroup :=
  [{ title := some "Later", release_list := [{ date := some "1999" }] },
   { title := some "Undated", release_list := [{ date := none }] }]

/-- Claim C10, witness: on the two concrete release groups, the parsed
list is sorted with the undated album first, and a crawl built on it
returns a discography with exactly that sorted album sequence. -/
theorem c10_album_ordering_witness :
    List.Pairwise (fun x y => albumSortKey x ≤ albumSortKey y)
      (mb_get_artist_discography (fun _ => []) (.ok c10RawGroups)) ∧
    (mb_get_artist_discography (fun _ => []) (.ok c10RawGroups)).map Album.title
      = ["Undated", "Later"] ∧
    ∃ d, (get_artist_discography none 0 "X" (.ok [{ name := "X" }])
        (.ok (mb_get_artist_discography (fun _ => []) (.ok c10RawGroups)))
        (fun _ => .ok none)).result = .ok d ∧
      d.albums = enhance_with_lastfm none (fun _ => .ok none)
        (mb_get_artist_discography (fun _ => []) (.ok c10RawGroups)) ∧
      List.Pairwise (fun x y => albumSortKey x ≤ albumSortKey y) d.albums := by
  refine ⟨(c10_album_ordering (fun _ => []) (.ok c10RawGroups) none (fun _ => .ok none)).1,
    by decide, ⟨_, rfl, ?_⟩⟩
  exact (c10_album_ordering (fun _ => []) (.ok c10RawGroups) none
    (fun _ => .ok none)).2.2.2 0 "X" { name := "X" } [] _ rfl

end CrawlLyrics
